import Mathlib

/-!
The program blocket-car-scraper: a shallow embedding of `main.go`.

Go `string` values are modelled as Lean `String`, Go `int` as `Int`, slices as `List`.
The separators the program splits on are ASCII, so splitting a text by characters and by
bytes gives the same pieces.  A run-time panic (index out of range) is an explicit outcome
of the functions that can raise one.  The answers of the network (already decoded from
JSON), the clock and the state of the file system are inputs of the model; a record
handed to `csvwriter.Write` counts as written.  Paths are Unix paths.
-/

set_option autoImplicit false

namespace Blocket

/-! ## Data model (`main.go`, lines 17-61) -/

/-- One element of `Car.CategoryCounters`. -/
structure CategoryCounter where
  SearchParameters : String
  Label : String
  APIQuery : String
  AdCounter : Int
deriving DecidableEq, Repr

/-- Struct for available car manufacturers and models. -/
structure Car where
  CategoryCounters : List CategoryCounter
deriving DecidableEq, Repr

/-! ## Label matching (`main`, lines 100-108 and 114-121) -/

/-- Body of the `for _, v := range ... .CategoryCounters` loop: on an exact label match
both variables are overwritten, otherwise they are left as they are. -/
def selectStep (query : String) (sel : String × String) (v : CategoryCounter) :
    String × String :=
  if v.Label = query then (v.SearchParameters, v.Label) else sel

/-- The scan of `main`: both variables start as the zero value `""` and the loop runs over
the whole slice.  The result is `(selectedX, selectedXName)`. -/
def selectByLabel (cs : List CategoryCounter) (query : String) : String × String :=
  cs.foldl (selectStep query) ("", "")

/-! ## Ads (`main.go`, lines 27-61) -/

/-- Element of `Attributes`. -/
structure AdAttribute where
  Header : String
  ID : String
  Items : List String
deriving DecidableEq, Repr

/-- Element of `Location`. -/
structure AdLocation where
  ID : String
  Name : String
  QueryKey : String
deriving DecidableEq, Repr

/-- Element of `Parameters`. -/
structure AdParameter where
  ID : String
  Label : String
  Value : String
deriving DecidableEq, Repr

/-- Element of `ParameterGroups` (`Kind` is the Go field `Type`). -/
structure AdParameterGroup where
  Label : String
  Parameters : List AdParameter
  Kind : String
deriving DecidableEq, Repr

/-- The `Price` field. -/
structure AdPrice where
  Label : String
  Suffix : String
  Value : Int
deriving DecidableEq, Repr

/-- Element of `Ad.Data`: one listing. -/
structure AdData where
  AdID : String
  AdStatus : String
  Attributes : List AdAttribute
  LicensePlate : String
  ListID : String
  Location : List AdLocation
  ParameterGroups : List AdParameterGroup
  Price : AdPrice
  ShareURL : String
  Subject : String
deriving DecidableEq, Repr

/-- Struct for car ads on blocket.se. -/
structure Ad where
  Data : List AdData
deriving DecidableEq, Repr

/-! ## Outcomes of a Go call -/

/-- How a call ends: a normal return of `(value, error)`, a run-time panic
`index out of range [index] with length length`, or `os.Exit` through `log.Fatalln`. -/
inductive Outcome (α : Type) where
  | returned (value : α) (err : Option String)
  | panicked (index length : Nat)
  | exited (code : Nat)
deriving DecidableEq, Repr

/-- Go slice indexing `xs[i]`: the element, or the bounds failure `(i, len xs)`. -/
def index {α : Type} (xs : List α) (i : Nat) : Except (Nat × Nat) α :=
  match xs[i]? with
  | some x => .ok x
  | none => .error (i, xs.length)

/-! ## `strings.Split` -/

/-- Scan of `strings.Split s sep` for a non-empty `sep`: the input is read left to
right, `cur` is the piece collected so far and `skip` counts the characters of a
separator occurrence that are still to be dropped.  At a position where `sep` starts,
the piece is closed; occurrences are therefore the leftmost non-overlapping ones. -/
def splitScan (sep : List Char) : List Char → Nat → List Char → List (List Char)
  | [], _, cur => [cur]
  | _ :: cs, skip + 1, cur => splitScan sep cs skip cur
  | c :: cs, 0, cur =>
    if sep.isPrefixOf (c :: cs) then cur :: splitScan sep cs (sep.length - 1) []
    else splitScan sep cs 0 (cur ++ [c])

/-- Go `strings.Split(s, sep)`; with an empty separator the string is exploded into its
characters. -/
def stringsSplit (s sep : String) : List String :=
  if sep.data = [] then s.data.map String.singleton
  else (splitScan sep.data s.data 0 []).map String.mk

/-! ## Token extraction (`getBearerToken`, lines 151-173) -/

/-- The double-quote character, the separator of the second split. -/
def quote : String := String.singleton (Char.ofNat 34)

/-- Lines 165-172: split the body on `bearerToken`, split the second piece on the
double quote, return the piece at index 2 with a nil error.  Both index expressions
panic when the slice is too short. -/
def extractToken (sb : String) : Outcome String :=
  match index (stringsSplit sb "bearerToken") 1 with
  | .error (i, n) => .panicked i n
  | .ok tmp1 =>
    match index (stringsSplit tmp1 quote) 2 with
    | .error (i, n) => .panicked i n
    | .ok tok => .returned tok none

/-- The function `getBearerToken`, given the result of fetching `https://blocket.se/`
(the body, or the error of `http.Get` / `ioutil.ReadAll`): a fetch error ends the process
in `log.Fatalln` (exit code 1). -/
def getBearerToken (page : Except String String) : Outcome String :=
  match page with
  | .error _ => .exited 1
  | .ok body => extractToken body

/-! ## Requests (`getCarBrand`, `getBrandModel`, `getListedAds`) -/

/-- A request as `http.NewRequest` and `req.Header.Set` leave it, with the timeout of the
client that sends it (in seconds): method, URL and headers. -/
structure Request where
  method : String
  url : String
  header : List (String × String)
  timeout : Nat
deriving DecidableEq, Repr

/-- An ASCII control character, as in `stringContainsCTLByte` of `net/url`: below the
space or equal to DEL. -/
def isCTL (c : Char) : Bool := c.toNat < 32 || c.toNat == 127

/-- A hexadecimal digit, as in `ishex` of `net/url`. -/
def isHex (c : Char) : Bool :=
  (48 ≤ c.toNat && c.toNat ≤ 57) || (97 ≤ c.toNat && c.toNat ≤ 102)
    || (65 ≤ c.toNat && c.toNat ≤ 70)

/-- Whether a text holds a percent sign that is not followed by two hexadecimal digits,
the failure of `unescape` in `net/url`. -/
def badEscape : List Char → Bool
  | [] => false
  | [c] => c == Char.ofNat 37
  | [c, d] => c == Char.ofNat 37 || d == Char.ofNat 37
  | c :: h1 :: h2 :: rest =>
    if c == Char.ofNat 37 then
      if isHex h1 && isHex h2 then badEscape rest else true
    else badEscape (h1 :: h2 :: rest)

/-- The part of a URL before its first number sign. -/
def beforeFragment (url : List Char) : List Char :=
  url.takeWhile (fun c => c != Char.ofNat 35)

/-- The part of a URL after its first number sign, the fragment. -/
def fragment (url : List Char) : List Char :=
  (url.dropWhile (fun c => c != Char.ofNat 35)).drop 1

/-- The error of `url.Parse`, and so of `http.NewRequest`, on a URL that starts with
`https://api.blocket.se/`, a path without percent sign and a question mark, as all URLs of
the program do: the fragment is cut off at the first number sign; the rest must hold no
control character and the fragment no malformed percent escape. -/
def urlParseErr (url : String) : Option String :=
  if (beforeFragment url.data).any isCTL then
    some "net/url: invalid control character in URL"
  else if badEscape (fragment url.data) then some "invalid URL escape"
  else none

/-- The query of a parsed URL (`RawQuery`): what follows the first question mark in the
part before the fragment. -/
def rawQuery (url : String) : String :=
  String.mk (((beforeFragment url.data).dropWhile (fun c => c != Char.ofNat 63)).drop 1)

/-- The lines shared by the three fetching functions: `http.NewRequest("GET", url, nil)`
and `req.Header.Set("authorization", "Bearer " + token)`, sent by a client with a timeout
of ten seconds.  `Header.Set` stores the key in its canonical form `Authorization`.  The
result is the error of `http.NewRequest`, if there is one. -/
def authorizedGet (url token : String) : Except String Request :=
  match urlParseErr url with
  | some e => .error e
  | none =>
    .ok { method := "GET", url := url, header := [("Authorization", "Bearer " ++ token)],
          timeout := 10 }

/-- Request of `getCarBrand` (lines 176-188). -/
def getCarBrandRequest (token : String) : Except String Request :=
  authorizedGet "https://api.blocket.se/classifieds/v1/ad_counters?cg=1020&include=all" token

/-- Request of `getBrandModel` (lines 208-220). -/
def getBrandModelRequest (token brandSearchParams : String) : Except String Request :=
  authorizedGet
    ("https://api.blocket.se/classifieds/v1/ad_counters?" ++ brandSearchParams
      ++ "&include=all") token

/-- Request of `getListedAds` (lines 239-249): the request that is built, or `none` when
`http.NewRequest` fails; its error is ignored and `req` is then nil. -/
def getListedAdsRequest (token modelSearchParams : String) : Option Request :=
  match authorizedGet
      ("https://api.blocket.se/search_bff/v1/content?" ++ modelSearchParams
        ++ "&include=all") token with
  | .error _ => none
  | .ok req => some req

/-! ## CSV export (`outputToCSV`, lines 266-309) -/

/-- The calendar date read off `time.Now()`: `Year()`, `Month()` (1 to 12) and `Day()`. -/
structure Date where
  Year : Nat
  Month : Nat
  Day : Nat
deriving DecidableEq, Repr

/-- The verb `%d` of `fmt.Sprintf` on a non-negative integer: its decimal digits. -/
def fmtD (n : Nat) : String := toString n

/-- The verb `%02d` on a non-negative integer: the decimal digits, padded on the left
with zeros up to a width of two. -/
def fmt02d (n : Nat) : String :=
  String.mk (List.replicate (2 - (toString n).length) (Char.ofNat 48)) ++ toString n

/-- Line 269: `fmt.Sprintf("%s_%s_%d-%02d-%02d.csv", ...)`. -/
def csvFilename (brandName modelName : String) (d : Date) : String :=
  brandName ++ "_" ++ modelName ++ "_" ++ fmtD d.Year ++ "-" ++ fmt02d d.Month ++ "-"
    ++ fmt02d d.Day ++ ".csv"

/-! ### Paths and the file system -/

/-- Go `strings.Join(elems, sep)`. -/
def stringsJoin : List String → String → String
  | [], _ => ""
  | [a], _ => a
  | a :: b :: rest, sep => a ++ sep ++ stringsJoin (b :: rest) sep

/-- A cleaned path: whether it starts at the root, and its components in order.  The
string Go holds for it is `Path.toString`. -/
structure Path where
  rooted : Bool
  comps : List String
deriving DecidableEq, Repr

/-- The string of a cleaned path: `/` for the root, `.` for the empty relative path. -/
def Path.toString (p : Path) : String :=
  if p.rooted then "/" ++ stringsJoin p.comps "/"
  else if p.comps = [] then "."
  else stringsJoin p.comps "/"

/-- One component in the scan of `filepath.Clean`; `stack` holds the components kept so
far, the last one first.  An empty component and `.` are dropped; `..` removes the
component before it, is dropped at the root, and is kept in a relative path that has
nothing left to remove. -/
def cleanStep (rooted : Bool) (stack : List String) (c : String) : List String :=
  if c = "" ∨ c = "." then stack
  else if c = ".." then
    match stack with
    | [] => if rooted then [] else [".."]
    | top :: below => if top = ".." then ".." :: top :: below else below
  else c :: stack

/-- Go `filepath.Clean`: the path is rooted when it starts with a slash; its components,
the pieces between slashes, are scanned from left to right. -/
def filepathClean (path : String) : Path :=
  let rooted : Bool := path.data.head? == some (Char.ofNat 47)
  { rooted := rooted
    comps := ((stringsSplit path "/").foldl (cleanStep rooted) []).reverse }

/-- Go `filepath.Join`: leading empty elements are ignored, the others are joined with
slashes and the result is cleaned.  (With no non-empty element Go returns the empty
string; every join of the program holds the element `data`.) -/
def filepathJoin (elem : List String) : Path :=
  match elem.dropWhile (fun e => e == "") with
  | [] => { rooted := false, comps := [] }
  | e :: es => filepathClean (stringsJoin (e :: es) "/")

/-- The directory that holds a path. -/
def Path.parent (p : Path) : Path := { p with comps := p.comps.dropLast }

/-- The path itself and every directory above it, from the top down. -/
def Path.ancestors (p : Path) : List Path :=
  (List.range (p.comps.length + 1)).map (fun n => { p with comps := p.comps.take n })

/-- The state of the file system: the directories and the regular files that exist, by
their cleaned paths.  Paths are told apart by their text; links and permissions are not
modelled. -/
structure FileSys where
  dirs : List Path
  files : List Path
deriving DecidableEq, Repr

/-- Whether `os.Stat` reports that the path does not exist. -/
def FileSys.notExist (fs : FileSys) (p : Path) : Bool :=
  !(decide (p ∈ fs.dirs) || decide (p ∈ fs.files))

/-- Go `os.MkdirAll`: the directory and every missing directory above it are made; when
the path or a path above it is a regular file nothing is made. -/
def FileSys.mkdirAll (fs : FileSys) (p : Path) : FileSys :=
  if p.ancestors.any (fun a => decide (a ∈ fs.files)) then fs
  else { fs with dirs := fs.dirs ++ p.ancestors.filter (fun a => decide (a ∉ fs.dirs)) }

/-- The error of `os.Create` on a path, if any: the path is a directory, or the directory
that should hold the file does not exist. -/
def FileSys.createErr (fs : FileSys) (p : Path) : Option String :=
  if p ∈ fs.dirs then some "is a directory"
  else if p.parent ∈ fs.dirs then none
  else if p.parent ∈ fs.files then some "not a directory"
  else some "no such file or directory"

/-- The state after a successful `os.Create`: the file exists. -/
def FileSys.create (fs : FileSys) (p : Path) : FileSys :=
  if p ∈ fs.files then fs else { fs with files := fs.files ++ [p] }

/-- Lines 272-274: the directory is made, with the directories above it, when `os.Stat`
reports that it does not exist. -/
def ensureDir (fs : FileSys) (dir : Path) : FileSys :=
  if fs.notExist dir then fs.mkdirAll dir else fs

/-- Line 282. -/
def columnnames : List String :=
  ["Subject", "Price", "Mileage", "Year", "Municipality", "Area", "URL"]

/-- Lines 289-300: the record built for one ad.  The index expressions are evaluated in
source order and the first one out of range panics. -/
def adLine (v : AdData) : Except (Nat × Nat) (List String) := do
  let g2 ← index v.ParameterGroups 0
  let p2 ← index g2.Parameters 2
  let g3 ← index v.ParameterGroups 0
  let p3 ← index g3.Parameters 3
  let l0 ← index v.Location 0
  let area ← if v.Location.length > 1 then (index v.Location 1).map (fun l => l.Name)
    else pure "N/A"
  pure [v.Subject, toString v.Price.Value, p2.Value, p3.Value, l0.Name, area, v.ShareURL]

/-- Lines 288-305: the loop over `ads.Data`.  `written` are the records handed to
`csvwriter.Write` so far; the result is the records handed over when the loop ends and
the bounds failure that ended it, if any. -/
def writeRows : List AdData → List (List String) → List (List String) × Option (Nat × Nat)
  | [], written => (written, none)
  | v :: vs, written =>
    match adLine v with
    | .error e => (written, some e)
    | .ok line => writeRows vs (written ++ [line])

/-- The effects and the outcome of one call of `outputToCSV`: the directory handed to
`os.MkdirAll` (if it was called), the path handed to `os.Create`, the records handed to
`csvwriter.Write` in order, how the call ended, and the file system it leaves. -/
structure CsvRun where
  mkdir : Option String
  path : String
  records : List (List String)
  outcome : Outcome Unit
  fileSys : FileSys
deriving DecidableEq, Repr

/-- The function `outputToCSV`. -/
def outputToCSV (fs : FileSys) (today : Date) (brandName modelName : String) (ads : Ad)
    (outdir : String) : CsvRun :=
  let filename := csvFilename brandName modelName today
  let dir := filepathJoin [outdir, "data", brandName, modelName]
  let mkdir := if fs.notExist dir then some dir.toString else none
  let fs1 := ensureDir fs dir
  let path := filepathJoin [outdir, "data", brandName, modelName, filename]
  match fs1.createErr path with
  | some err =>
    { mkdir := mkdir, path := path.toString, records := [],
      outcome := .returned () (some err), fileSys := fs1 }
  | none =>
    match writeRows ads.Data [columnnames] with
    | (records, some (i, n)) =>
      { mkdir := mkdir, path := path.toString, records := records,
        outcome := .panicked i n, fileSys := fs1.create path }
    | (records, none) =>
      { mkdir := mkdir, path := path.toString, records := records,
        outcome := .returned () none, fileSys := fs1.create path }

/-! ## The program (`main`, lines 63-149) -/

/-- The parsed command line: `len(os.Args)` and the five flags. -/
structure Flags where
  nargs : Nat
  brand : String
  model : String
  list : Bool
  outdir : String
  output : Bool
deriving DecidableEq, Repr

/-- Everything outside the program: the result of fetching the start page, the answers
of the two API endpoints to a request (decoded, or the error of `client.Do`), the working
directory, the date and the file system. -/
structure World where
  page : Except String String
  catalog : Request → Except String Car
  listing : Request → Except String Ad
  cwd : String
  today : Date
  fs : FileSys

/-- Observable steps of a run, in order. -/
inductive Event where
  | usage
  | exit (code : Nat)
  | httpGet (url : String)
  | send (r : Request)
  | logPrintf (msg : String)
  | println (s : String)
  | printAds (ads : Ad)
  | outputToCSV (brandName modelName : String) (ads : Ad) (outdir : String)
  | printf (s : String)
  | panic (index length : Nat)
  | nilPanic
deriving DecidableEq, Repr

/-- Lines 76-89: whether `main` prints the usage text and exits with code 0. -/
def usageExit (f : Flags) : Bool :=
  if f.nargs < 2 then true
  else if f.brand != "" && f.model == "" && !f.list then true
  else if f.brand == "" && f.model != "" && !f.list then true
  else false

/-- The functions `getCarBrand` and `getBrandModel` with the log line of `main`: the
decoded answer, and on an error of `http.NewRequest` or of `client.Do` the zero `Car` with
the error, which `main` logs. -/
def fetchCatalog (w : World) (r : Except String Request) (logPrefix : String) :
    Car × List Event :=
  match r with
  | .error e => ({ CategoryCounters := [] }, [.logPrintf (logPrefix ++ e)])
  | .ok req =>
    match w.catalog req with
    | .ok car => (car, [.send req])
    | .error e => ({ CategoryCounters := [] }, [.send req, .logPrintf (logPrefix ++ e)])

/-- How `getListedAds` ends: with the decoded ads, or in the panic of a nil dereference,
at `req.Header.Set` when `http.NewRequest` failed and at `response.Body` when `client.Do`
failed; both errors are ignored. -/
inductive AdsResult where
  | fetched (ads : Ad)
  | nilRequest
  | nilResponse
deriving DecidableEq, Repr

/-- The function `getListedAds` (lines 239-264). -/
def getListedAds (w : World) (token modelSearchParams : String) : AdsResult :=
  match getListedAdsRequest token modelSearchParams with
  | none => .nilRequest
  | some req =>
    match w.listing req with
    | .error _ => .nilResponse
    | .ok ads => .fetched ads

/-- Lines 123-134: the labels printed in list mode. -/
def listLabels (f : Flags) (brand model : Car) : List Event :=
  if f.list then
    if f.brand != "" then model.CategoryCounters.map (fun v => Event.println v.Label)
    else brand.CategoryCounters.map (fun v => Event.println v.Label)
  else []

/-- Lines 138-148: console dump or CSV export of the ads. -/
def emitAds (w : World) (f : Flags) (brandName modelName : String) (ads : Ad) :
    List Event :=
  if f.output && !f.list && f.outdir == "" then [.printAds ads]
  else if !f.list then
    let outdir := if f.outdir == "" then w.cwd else f.outdir
    .outputToCSV brandName modelName ads outdir ::
      match (outputToCSV w.fs w.today brandName modelName ads outdir).outcome with
      | .returned _ (some err) => [.printf ("ERROR: " ++ err)]
      | .returned _ none => []
      | .panicked i n => [.panic i n]
      | .exited c => [.exit c]
  else []

/-- Line 95: the brand catalog `main` works with. -/
def brandCatalog (w : World) (token : String) : Car :=
  (fetchCatalog w (getCarBrandRequest token) "Error retrieving car brand\n").1

/-- Lines 100-108: `(selectedBrand, selectedBrandName)`. -/
def selectedBrand (w : World) (f : Flags) (token : String) : String × String :=
  selectByLabel (brandCatalog w token).CategoryCounters f.brand

/-- Line 109: the model catalog `main` works with. -/
def modelCatalog (w : World) (f : Flags) (token : String) : Car :=
  (fetchCatalog w (getBrandModelRequest token (selectedBrand w f token).1) "").1

/-- Lines 114-121: `(selectedModel, selectedModelName)`. -/
def selectedModel (w : World) (f : Flags) (token : String) : String × String :=
  selectByLabel (modelCatalog w f token).CategoryCounters f.model

/-- The function `main` after `flag.Parse()`, as the sequence of its observable steps. -/
def main (w : World) (f : Flags) : List Event :=
  if usageExit f then [.usage, .exit 0]
  else
    .httpGet "https://blocket.se/" ::
    match getBearerToken w.page with
    | .exited c => [.exit c]
    | .panicked i n => [.panic i n]
    | .returned token err =>
      let tokenLog := match err with
        | some e => [Event.logPrintf ("Error requesting BearerToken\n" ++ e)]
        | none => []
      let brandEvents :=
        (fetchCatalog w (getCarBrandRequest token) "Error retrieving car brand\n").2
      let modelEvents :=
        (fetchCatalog w (getBrandModelRequest token (selectedBrand w f token).1) "").2
      let adsEvents := match getListedAdsRequest token (selectedModel w f token).1 with
        | some req => [Event.send req]
        | none => []
      tokenLog ++ brandEvents ++ modelEvents
        ++ listLabels f (brandCatalog w token) (modelCatalog w f token) ++ adsEvents
        ++ match getListedAds w token (selectedModel w f token).1 with
          | .fetched ads =>
            emitAds w f (selectedBrand w f token).2 (selectedModel w f token).2 ads
          | .nilRequest => [.nilPanic]
          | .nilResponse => [.nilPanic]

/-! ## Definitions used to state the properties -/

/-- Number of parameters in the first parameter group of an ad; 0 when the ad has no
parameter group. -/
def firstGroupSize (v : AdData) : Nat :=
  match v.ParameterGroups with
  | [] => 0
  | g :: _ => g.Parameters.length

/-- The Go zero value of a parameter, of a parameter group and of a location entry. -/
def zeroParameter : AdParameter := { ID := "", Label := "", Value := "" }

@[inherit_doc zeroParameter]
def zeroGroup : AdParameterGroup := { Label := "", Parameters := [], Kind := "" }

@[inherit_doc zeroParameter]
def zeroLocation : AdLocation := { ID := "", Name := "", QueryKey := "" }

/-- The export row of an ad as the specification describes it: subject, decimal price,
the values of parameters 2 and 3 of the first parameter group, the name of the first
location entry, the name of the second location entry or `N/A` when there are fewer than
two, and the share URL. -/
def exportRow (v : AdData) : List String :=
  [ v.Subject,
    toString v.Price.Value,
    ((v.ParameterGroups.getD 0 zeroGroup).Parameters.getD 2 zeroParameter).Value,
    ((v.ParameterGroups.getD 0 zeroGroup).Parameters.getD 3 zeroParameter).Value,
    (v.Location.getD 0 zeroLocation).Name,
    if 2 ≤ v.Location.length then (v.Location.getD 1 zeroLocation).Name else "N/A",
    v.ShareURL ]

/-- The date in the form `YYYY-MM-DD` of the specification: four digits of the year, two
of the month and two of the day, each digit written out. -/
def isoDate (d : Date) : String :=
  String.mk [Nat.digitChar (d.Year / 1000 % 10), Nat.digitChar (d.Year / 100 % 10),
      Nat.digitChar (d.Year / 10 % 10), Nat.digitChar (d.Year % 10)]
    ++ "-" ++ String.mk [Nat.digitChar (d.Month / 10 % 10), Nat.digitChar (d.Month % 10)]
    ++ "-" ++ String.mk [Nat.digitChar (d.Day / 10 % 10), Nat.digitChar (d.Day % 10)]

/-- The file name of the specification, `<brand>_<model>_<YYYY-MM-DD>.csv`. -/
def exportName (brandName modelName : String) (d : Date) : String :=
  brandName ++ "_" ++ modelName ++ "_" ++ isoDate d ++ ".csv"

/-- The directory of the specification, `<outdir>/data/<brand>/<model>`. -/
def exportDir (outdir brandName modelName : String) : Path :=
  filepathJoin [outdir, "data", brandName, modelName]

/-- The path of the entry named `name` directly inside the directory `dir`. -/
def Path.child (dir : Path) (name : String) : Path :=
  { rooted := dir.rooted, comps := dir.comps ++ [name] }

/-- Go `strings.Contains(s, sub)`: `sub` occurs in `s` as a contiguous substring. -/
def stringsContains (s sub : String) : Prop := sub.data <:+: s.data

instance (s sub : String) : Decidable (stringsContains s sub) :=
  inferInstanceAs (Decidable (sub.data <:+: s.data))

/-- A file system that holds the directories `/` and `/tmp` and no file. -/
def plainFileSys : FileSys :=
  { dirs := [{ rooted := true, comps := [] }, { rooted := true, comps := ["tmp"] }],
    files := [] }

/-- An ad with the given subject, price, parameter values of its only parameter group and
location names. -/
def sampleAd (subject : String) (price : Int) (params locations : List String) : AdData :=
  { AdID := "", AdStatus := "active", Attributes := [], LicensePlate := "", ListID := "",
    Location := locations.map (fun n => { ID := "", Name := n, QueryKey := "" }),
    ParameterGroups :=
      [{ Label := "", Parameters := params.map (fun x => { ID := "", Label := "", Value := x }),
         Kind := "" }],
    Price := { Label := "", Suffix := "kr", Value := price },
    ShareURL := "https://www.blocket.se/annons/" ++ subject,
    Subject := subject }

/-- A page that holds the token `abc123`. -/
def samplePage : String :=
  "<script>window.conf=(\"bearerToken\":\"abc123\",\"more\":1)</script>"

/-- A brand catalog and a model catalog. -/
def sampleBrands : Car :=
  { CategoryCounters :=
      [{ SearchParameters := "cg=1020&brand=abc", Label := "Volvo", APIQuery := "",
         AdCounter := 13 }] }

@[inherit_doc sampleBrands]
def sampleModels : Car :=
  { CategoryCounters :=
      [{ SearchParameters := "cg=1020&brand=abc&model=s60", Label := "S60", APIQuery := "",
         AdCounter := 4 },
       { SearchParameters := "cg=1020&brand=abc&model=xyz", Label := "V70", APIQuery := "",
         AdCounter := 9 }] }

/-- A world with the given start page and answer of the listing endpoint, in which the
catalog endpoint answers with `sampleBrands` and `sampleModels`. -/
def sampleWorld (page : Except String String) (listing : Except String Ad) : World :=
  { page := page
    catalog := fun r =>
      if r.url = "https://api.blocket.se/classifieds/v1/ad_counters?cg=1020&include=all"
      then .ok sampleBrands else .ok sampleModels
    listing := fun _ => listing
    cwd := "/tmp"
    today := { Year := 2024, Month := 3, Day := 7 }
    fs := plainFileSys }

/-- The command line `-brand Volvo -model V70`. -/
def sampleFlags : Flags :=
  { nargs := 5, brand := "Volvo", model := "V70", list := false, outdir := "",
    output := false }

/-! ## Label matching: properties -/

theorem foldl_selectStep_no_match (query : String) (cs : List CategoryCounter)
    (sel : String × String) (h : ∀ e ∈ cs, e.Label ≠ query) :
    cs.foldl (selectStep query) sel = sel := by
  induction cs generalizing sel with
  | nil => rfl
  | cons c cs ih =>
    have hc : c.Label ≠ query := h c (List.mem_cons_self _ _)
    have hcs : ∀ e ∈ cs, e.Label ≠ query := fun e he => h e (List.mem_cons_of_mem _ he)
    simp [List.foldl_cons, selectStep, hc, ih _ hcs]

theorem selectByLabel_of_last (query : String) (pre post : List CategoryCounter)
    (e : CategoryCounter) (he : e.Label = query) (hpost : ∀ x ∈ post, x.Label ≠ query) :
    selectByLabel (pre ++ e :: post) query = (e.SearchParameters, query) := by
  unfold selectByLabel
  rw [List.foldl_append, List.foldl_cons, foldl_selectStep_no_match query post _ hpost]
  simp [selectStep, he]

theorem exists_last_match (query : String) (cs : List CategoryCounter)
    (h : ∃ e ∈ cs, e.Label = query) :
    ∃ pre e post, cs = pre ++ e :: post ∧ e.Label = query ∧ ∀ x ∈ post, x.Label ≠ query := by
  induction cs with
  | nil => simp at h
  | cons c cs ih =>
    by_cases hcs : ∃ e ∈ cs, e.Label = query
    · obtain ⟨pre, e, post, hsplit, he, hpost⟩ := ih hcs
      exact ⟨c :: pre, e, post, by simp [hsplit], he, hpost⟩
    · have hc : c.Label = query := by
        obtain ⟨e, hmem, he⟩ := h
        rcases List.mem_cons.1 hmem with rfl | hmem
        · exact he
        · exact absurd ⟨e, hmem, he⟩ hcs
      refine ⟨[], c, cs, rfl, hc, ?_⟩
      intro x hx hxq
      exact hcs ⟨x, hx, hxq⟩

/-- C1 (counterexample): with the empty query and an entry whose label and search
parameters are both empty, the scan yields the empty pair although an entry matches. -/
theorem selectByLabel_empty_entry_counterexample :
    ¬ (selectByLabel [{ SearchParameters := "", Label := "", APIQuery := "", AdCounter := 0 }] ""
          = ("", "")
        ↔ ∀ e ∈ [({ SearchParameters := "", Label := "", APIQuery := "", AdCounter := 0 } :
            CategoryCounter)], e.Label ≠ "") := by
  intro h
  exact h.1 (by decide) _ (List.mem_singleton.2 rfl) rfl

/-- C1 (amended): for every catalog and every query label, the scan yields the empty pair
when no entry's label equals the query; when some entry matches it yields the search
parameters of the last matching entry together with the query as name; and for a
non-empty query the empty pair is yielded if and only if no entry matches. -/
theorem selectByLabel_last_match (cs : List CategoryCounter) (query : String) :
    ((∀ e ∈ cs, e.Label ≠ query) → selectByLabel cs query = ("", "")) ∧
    ((∃ e ∈ cs, e.Label = query) →
      ∃ pre e post, cs = pre ++ e :: post ∧ e.Label = query ∧
        (∀ x ∈ post, x.Label ≠ query) ∧
        selectByLabel cs query = (e.SearchParameters, query)) ∧
    (query ≠ "" → (selectByLabel cs query = ("", "") ↔ ∀ e ∈ cs, e.Label ≠ query)) := by
  refine ⟨fun h => foldl_selectStep_no_match query cs _ h, ?_, ?_⟩
  · intro h
    obtain ⟨pre, e, post, hsplit, he, hpost⟩ := exists_last_match query cs h
    refine ⟨pre, e, post, hsplit, he, hpost, ?_⟩
    rw [hsplit]
    exact selectByLabel_of_last query pre post e he hpost
  · intro hq
    constructor
    · intro hsel e hmem he
      obtain ⟨pre, e1, post, hsplit, he1, hpost⟩ := exists_last_match query cs ⟨e, hmem, he⟩
      rw [hsplit, selectByLabel_of_last query pre post e1 he1 hpost] at hsel
      exact hq (congrArg Prod.snd hsel)
    · exact fun h => foldl_selectStep_no_match query cs _ h

/-- C1 (witness): a catalog in which the label `Volvo` occurs twice; the scan selects the
second of the two entries. -/
theorem selectByLabel_last_match_witness :
    ("Volvo" : String) ≠ "" ∧
    selectByLabel
        [{ SearchParameters := "cg=1020&brand=old", Label := "Volvo", APIQuery := "", AdCounter := 1 },
         { SearchParameters := "cg=1020&brand=saab", Label := "Saab", APIQuery := "", AdCounter := 2 },
         { SearchParameters := "cg=1020&brand=new", Label := "Volvo", APIQuery := "", AdCounter := 3 }]
        "Volvo" = ("cg=1020&brand=new", "Volvo") ∧
    (selectByLabel
        [{ SearchParameters := "cg=1020&brand=old", Label := "Volvo", APIQuery := "", AdCounter := 1 },
         { SearchParameters := "cg=1020&brand=saab", Label := "Saab", APIQuery := "", AdCounter := 2 },
         { SearchParameters := "cg=1020&brand=new", Label := "Volvo", APIQuery := "", AdCounter := 3 }]
        "Volvo" = ("", "")
      ↔ ∀ e ∈
        [({ SearchParameters := "cg=1020&brand=old", Label := "Volvo", APIQuery := "", AdCounter := 1 } :
            CategoryCounter),
         { SearchParameters := "cg=1020&brand=saab", Label := "Saab", APIQuery := "", AdCounter := 2 },
         { SearchParameters := "cg=1020&brand=new", Label := "Volvo", APIQuery := "", AdCounter := 3 }],
        e.Label ≠ "Volvo") :=
  ⟨by decide, by decide, (selectByLabel_last_match _ "Volvo").2.2 (by decide)⟩

/-! ## Flag validation: properties -/

theorem usageExit_iff (f : Flags) (h : 2 ≤ f.nargs) :
    usageExit f = true ↔
      ((f.brand ≠ "" ∧ f.model = "") ∨ (f.brand = "" ∧ f.model ≠ "")) ∧ f.list = false := by
  have hn : ¬ f.nargs < 2 := by omega
  unfold usageExit
  by_cases hb : f.brand = "" <;> by_cases hm : f.model = "" <;> cases hl : f.list <;>
    simp [hn, hb, hm]

/-- C9: when at least one command-line argument is given, `main` prints the usage text
and exits with code 0, issuing no request, if and only if exactly one of `-brand` and
`-model` is non-empty and `-list` is not set; in every other case its first step is the
fetch of the start page, the head of the fetch pipeline. -/
theorem main_usage_iff (w : World) (f : Flags) (h : 2 ≤ f.nargs) :
    (main w f = [Event.usage, Event.exit 0] ↔
      ((f.brand ≠ "" ∧ f.model = "") ∨ (f.brand = "" ∧ f.model ≠ "")) ∧ f.list = false) ∧
    (¬ (((f.brand ≠ "" ∧ f.model = "") ∨ (f.brand = "" ∧ f.model ≠ "")) ∧ f.list = false) →
      ∃ rest, main w f = Event.httpGet "https://blocket.se/" :: rest) := by
  have key := usageExit_iff f h
  constructor
  · constructor
    · intro hmain
      by_contra hcon
      have hu : usageExit f = false := by
        cases hx : usageExit f
        · rfl
        · exact absurd (key.1 hx) hcon
      simp [main, hu] at hmain
    · intro hc
      simp [main, key.2 hc]
  · intro hcon
    have hu : usageExit f = false := by
      cases hx : usageExit f
      · rfl
      · exact absurd (key.1 hx) hcon
    exact ⟨_, by simp only [main, hu]; rfl⟩

/-- C9 (witness): `-brand Volvo` alone. -/
theorem main_usage_iff_witness :
    main
        { page := .ok "", catalog := fun _ => .ok { CategoryCounters := [] },
          listing := fun _ => .ok { Data := [] }, cwd := "/tmp",
          today := { Year := 2024, Month := 3, Day := 7 },
          fs := { dirs := [], files := [] } }
        { nargs := 3, brand := "Volvo", model := "", list := false, outdir := "",
          output := false }
      = [Event.usage, Event.exit 0] :=
  ((main_usage_iff _
      { nargs := 3, brand := "Volvo", model := "", list := false, outdir := "",
        output := false } (by decide)).1).2 (by decide)

/-! ## `strings.Split`: properties -/

theorem splitScan_pass (sep : List Char) (P R cur : List Char)
    (h : ∀ A B, P = A ++ B → B ≠ [] → ¬ sep <+: B ++ R) :
    splitScan sep (P ++ R) 0 cur = splitScan sep R 0 (cur ++ P) := by
  induction P generalizing cur with
  | nil => simp
  | cons c P ih =>
    have h0 : ¬ sep <+: (c :: P) ++ R := h [] (c :: P) rfl (by simp)
    have h0b : sep.isPrefixOf (c :: (P ++ R)) = false := by
      cases hx : sep.isPrefixOf (c :: (P ++ R))
      · rfl
      · exact absurd (List.isPrefixOf_iff_prefix.1 hx) h0
    have hP : ∀ A B, P = A ++ B → B ≠ [] → ¬ sep <+: B ++ R :=
      fun A B hAB hB => h (c :: A) B (by simp [hAB]) hB
    rw [List.cons_append, splitScan, if_neg (by simp [h0b]), ih _ hP]
    simp

theorem splitScan_skip (sep : List Char) (X R cur : List Char) :
    splitScan sep (X ++ R) X.length cur = splitScan sep R 0 cur := by
  induction X with
  | nil => simp
  | cons x X ih => simpa [splitScan] using ih

theorem splitScan_match (c : Char) (t R cur : List Char) :
    splitScan (c :: t) ((c :: t) ++ R) 0 cur = cur :: splitScan (c :: t) R 0 [] := by
  have hp : (c :: t).isPrefixOf (c :: (t ++ R)) = true :=
    List.isPrefixOf_iff_prefix.2 ⟨R, rfl⟩
  rw [List.cons_append, splitScan, if_pos hp]
  simpa using splitScan_skip (c :: t) t R []

theorem splitScan_head (sep : List Char) (S cur : List Char) :
    ∃ S1 rest, splitScan sep S 0 cur = (cur ++ S1) :: rest := by
  induction S generalizing cur with
  | nil => exact ⟨[], [], by simp [splitScan]⟩
  | cons c S ih =>
    by_cases hp : sep.isPrefixOf (c :: S) = true
    · exact ⟨[], splitScan sep S (sep.length - 1) [], by rw [splitScan, if_pos hp]; simp⟩
    · obtain ⟨S1, rest, h⟩ := ih (cur ++ [c])
      exact ⟨c :: S1, rest, by rw [splitScan, if_neg hp, h]; simp⟩

theorem no_start_of_absent (c : Char) (t P : List Char) (r0 : Char) (R1 : List Char)
    (hr : r0 ∉ t) (hP : ¬ (c :: t) <:+: P) :
    ∀ A B, P = A ++ B → B ≠ [] → ¬ (c :: t) <+: B ++ r0 :: R1 := by
  intro A B hAB hB hpre
  rcases List.prefix_or_prefix_of_prefix hpre (List.prefix_append B (r0 :: R1)) with h1 | h1
  · obtain ⟨u, hu⟩ := h1
    exact hP ⟨A, u, by rw [hAB, ← hu]; simp⟩
  · obtain ⟨u, hu⟩ := h1
    rw [← hu] at hpre
    have hur : u <+: r0 :: R1 := (List.prefix_append_right_inj B).1 hpre
    cases u with
    | nil =>
      rw [List.append_nil] at hu
      exact hP ⟨A, [], by rw [hAB, hu]; simp⟩
    | cons u0 u1 =>
      have hu0 : u0 = r0 := (List.cons_prefix_cons.1 hur).1
      cases B with
      | nil => exact hB rfl
      | cons b0 B1 =>
        have ht : t = B1 ++ u0 :: u1 := by
          have := hu
          simp only [List.cons_append, List.cons.injEq] at this
          exact this.2.symm
        exact hr (by rw [ht, ← hu0]; simp)

theorem no_start_at_end (sep P : List Char) (hP : ¬ sep <:+: P) :
    ∀ A B, P = A ++ B → B ≠ [] → ¬ sep <+: B ++ [] := by
  intro A B hAB _ hpre
  obtain ⟨u, hu⟩ := hpre
  rw [List.append_nil] at hu
  exact hP ⟨A, u, by rw [hAB, ← hu]; simp⟩

theorem splitScan_no_occurrence (sep s : List Char) (h : ¬ sep <:+: s) :
    splitScan sep s 0 [] = [s] := by
  have := splitScan_pass sep s [] [] (no_start_at_end sep s h)
  simpa [splitScan] using this

/-! ## Token extraction: properties -/

theorem splitScan_marker_body (c : Char) (t P T S : List Char) (q k : Char)
    (hcq : c ≠ q) (hck : c ≠ k) (hqt : q ∉ t)
    (hct : c ∉ t) (hP : ¬ (c :: t) <:+: P) (hT : ¬ (c :: t) <:+: T) :
    ∃ S1 rest, splitScan (c :: t) (P ++ ((c :: t) ++ (q :: k :: q :: (T ++ q :: S)))) 0 []
      = P :: (q :: k :: q :: (T ++ q :: S1)) :: rest := by
  have hnq : ∀ l, (c :: t).isPrefixOf (q :: l) = false := by
    intro l
    simp [List.isPrefixOf, hcq]
  have hnk : ∀ l, (c :: t).isPrefixOf (k :: l) = false := by
    intro l
    simp [List.isPrefixOf, hck]
  obtain ⟨S1, rest, hS⟩ := splitScan_head (c :: t) S ([q, k, q] ++ T ++ [q])
  refine ⟨S1, rest, ?_⟩
  have hm := splitScan_match c t (q :: k :: q :: (T ++ q :: S)) P
  rw [List.cons_append] at hm
  rw [List.cons_append, splitScan_pass (c :: t) P _ []
      (no_start_of_absent c t P c (t ++ (q :: k :: q :: (T ++ q :: S))) hct hP),
    List.nil_append, hm]
  congr 1
  rw [splitScan, if_neg (by simp [hnq]), splitScan, if_neg (by simp [hnk]), splitScan,
    if_neg (by simp [hnq]),
    splitScan_pass (c :: t) T (q :: S) _ (no_start_of_absent c t T q S hqt hT),
    splitScan, if_neg (by simp [hnq])]
  have e : ([] ++ [q] ++ [k] ++ [q] ++ T ++ [q] : List Char) = [q, k, q] ++ T ++ [q] := by simp
  rw [e, hS]
  simp

theorem splitScan_quote_piece (q k : Char) (T S1 : List Char) (hkq : k ≠ q)
    (hT : ¬ [q] <:+: T) :
    ∃ rest, splitScan [q] (q :: k :: q :: (T ++ q :: S1)) 0 [] = [] :: [k] :: T :: rest := by
  have hyes : ∀ l, [q].isPrefixOf (q :: l) = true := by
    intro l
    simp [List.isPrefixOf]
  have hno : ∀ l, [q].isPrefixOf (k :: l) = false := by
    intro l
    simp [List.isPrefixOf, Ne.symm hkq]
  refine ⟨splitScan [q] S1 0 [], ?_⟩
  rw [splitScan, if_pos (hyes _)]
  simp only [List.length_singleton, Nat.sub_self]
  rw [splitScan, if_neg (by simp [hno]), splitScan, if_pos (hyes _)]
  simp only [List.length_singleton, Nat.sub_self, List.nil_append]
  rw [splitScan_pass [q] T (q :: S1) [] (no_start_of_absent q [] T q S1 (by simp) hT),
    List.nil_append, splitScan, if_pos (hyes _)]
  simp

theorem extractToken_of_pieces (sb : String) (P T S : List Char)
    (hsb : sb.data = P ++ ("bearerToken".data ++
      (Char.ofNat 34 :: Char.ofNat 58 :: Char.ofNat 34 :: (T ++ Char.ofNat 34 :: S))))
    (hP : ¬ "bearerToken".data <:+: P) (hT : ¬ "bearerToken".data <:+: T)
    (hq : ¬ [Char.ofNat 34] <:+: T) :
    extractToken sb = .returned (String.mk T) none := by
  have e3 : "bearerToken".data = Char.ofNat 98 :: "earerToken".data := by decide
  have h1 : ¬ "bearerToken".data = [] := by decide
  have h2 : ¬ quote.data = [] := by decide
  have h3 : quote.data = [Char.ofNat 34] := by decide
  rw [e3] at hP hT hsb
  obtain ⟨S1, rest, hsplit⟩ := splitScan_marker_body (Char.ofNat 98) "earerToken".data P T S
    (Char.ofNat 34) (Char.ofNat 58) (by decide) (by decide) (by decide) (by decide) hP hT
  obtain ⟨rest2, hsplit2⟩ := splitScan_quote_piece (Char.ofNat 34) (Char.ofNat 58) T S1
    (by decide) hq
  unfold extractToken
  simp only [stringsSplit, if_neg h1, if_neg h2, hsb, e3, hsplit, h3, List.map_cons, index,
    List.getElem?_cons_succ, List.getElem?_cons_zero, hsplit2]
  simp

/-- C4 (the code at the failing input): in the page `xbearerToken":"abearerTokenb"y` no
marker precedes the first one and the token `abearerTokenb` holds no double quote;
`strings.Split` cuts at every occurrence of the marker, not at the first one only, and the
extraction returns `a` instead of the token. -/
theorem extractToken_cuts_at_every_marker :
    ¬ stringsContains "x" "bearerToken" ∧ ¬ stringsContains "abearerTokenb" quote ∧
    stringsSplit ("x" ++ "bearerToken\":\"" ++ "abearerTokenb" ++ "\"" ++ "y") "bearerToken"
      = ["x", "\":\"a", "b\"y"] ∧
    extractToken ("x" ++ "bearerToken\":\"" ++ "abearerTokenb" ++ "\"" ++ "y")
      = .returned "a" none ∧
    extractToken ("x" ++ "bearerToken\":\"" ++ "abearerTokenb" ++ "\"" ++ "y")
      ≠ .returned "abearerTokenb" none := by
  decide

/-- When the text before the first marker and the token do not hold the marker and the
token holds no double quote, the extraction returns the token, whatever follows it. -/
theorem extractToken_returns_token (P T S : String)
    (hP : ¬ stringsContains P "bearerToken")
    (hTq : ¬ stringsContains T quote)
    (hTm : ¬ stringsContains T "bearerToken") :
    extractToken (P ++ "bearerToken\":\"" ++ T ++ "\"" ++ S) = .returned T none := by
  have e1 : ("bearerToken\":\"" : String).data
      = "bearerToken".data ++ [Char.ofNat 34, Char.ofNat 58, Char.ofNat 34] := by decide
  have e2 : ("\"" : String).data = [Char.ofNat 34] := by decide
  have h := extractToken_of_pieces (P ++ "bearerToken\":\"" ++ T ++ "\"" ++ S)
    P.data T.data S.data (by simp [String.data_append, e1, e2]) hP hTm hTq
  simpa using h

/-- C5 (the code on a page without the marker): for every page body that does not contain
the substring `bearerToken`, `getBearerToken` does not return at all, neither a token nor
an error: the expression `tmp[1]` panics with `index out of range [1] with length 1`. -/
theorem getBearerToken_no_marker_panics (body : String)
    (h : ¬ stringsContains body "bearerToken") :
    getBearerToken (.ok body) = .panicked 1 1 := by
  have h1 : ¬ "bearerToken".data = [] := by decide
  simp only [getBearerToken, extractToken, stringsSplit, if_neg h1,
    splitScan_no_occurrence "bearerToken".data body.data h, List.map_cons, List.map_nil, index]
  rfl

/-- C5 (the failing input): a page without the marker. -/
theorem getBearerToken_no_marker_panics_witness :
    getBearerToken (.ok "<html><body>blocket</body></html>") = .panicked 1 1 :=
  getBearerToken_no_marker_panics "<html><body>blocket</body></html>" (by decide)

/-! ## The listing request: properties -/

theorem beforeFragment_eq_self (l : List Char) (h : Char.ofNat 35 ∉ l) :
    beforeFragment l = l := by
  unfold beforeFragment
  rw [List.takeWhile_eq_self_iff]
  intro c hc
  have : c ≠ Char.ofNat 35 := fun e => h (e ▸ hc)
  simpa using this

theorem fragment_eq_nil (l : List Char) (h : Char.ofNat 35 ∉ l) : fragment l = [] := by
  unfold fragment
  have : l.dropWhile (fun c => c != Char.ofNat 35) = [] := by
    rw [List.dropWhile_eq_nil_iff]
    intro c hc
    have : c ≠ Char.ofNat 35 := fun e => h (e ▸ hc)
    simpa using this
  rw [this]
  rfl

theorem content_url_data (p : String) :
    ("https://api.blocket.se/search_bff/v1/content?" ++ p ++ "&include=all").data
      = "https://api.blocket.se/search_bff/v1/content".data
          ++ Char.ofNat 63 :: (p.data ++ "&include=all".data) := by
  have h : ("https://api.blocket.se/search_bff/v1/content?" : String).data
      = "https://api.blocket.se/search_bff/v1/content".data ++ [Char.ofNat 63] := by
    decide
  simp [String.data_append, h]

theorem urlParseErr_content (p : String) (hctl : ∀ c ∈ p.data, isCTL c = false)
    (hfrag : Char.ofNat 35 ∉ p.data) :
    urlParseErr ("https://api.blocket.se/search_bff/v1/content?" ++ p ++ "&include=all")
      = none := by
  have hno : Char.ofNat 35 ∉
      ("https://api.blocket.se/search_bff/v1/content?" ++ p ++ "&include=all").data := by
    rw [content_url_data]
    intro hmem
    rcases List.mem_append.1 hmem with h1 | h1
    · revert h1
      decide
    · rcases List.mem_cons.1 h1 with h2 | h2
      · revert h2
        decide
      · rcases List.mem_append.1 h2 with h3 | h3
        · exact hfrag h3
        · revert h3
          decide
  have hall : (("https://api.blocket.se/search_bff/v1/content?" ++ p ++ "&include=all").data).any
      isCTL = false := by
    rw [content_url_data, List.any_eq_false]
    intro c hmem
    rcases List.mem_append.1 hmem with h1 | h1
    · have : ∀ x ∈ "https://api.blocket.se/search_bff/v1/content".data, isCTL x = false := by
        decide
      simp [this c h1]
    · rcases List.mem_cons.1 h1 with h2 | h2
      · subst h2
        decide
      · rcases List.mem_append.1 h2 with h3 | h3
        · simp [hctl c h3]
        · have : ∀ x ∈ "&include=all".data, isCTL x = false := by decide
          simp [this c h3]
  unfold urlParseErr
  rw [beforeFragment_eq_self _ hno, fragment_eq_nil _ hno, hall]
  rfl

theorem rawQuery_content (p : String) (hfrag : Char.ofNat 35 ∉ p.data) :
    rawQuery ("https://api.blocket.se/search_bff/v1/content?" ++ p ++ "&include=all")
      = p ++ "&include=all" := by
  have hno : Char.ofNat 35 ∉
      ("https://api.blocket.se/search_bff/v1/content?" ++ p ++ "&include=all").data := by
    rw [content_url_data]
    intro hmem
    rcases List.mem_append.1 hmem with h1 | h1
    · revert h1
      decide
    · rcases List.mem_cons.1 h1 with h2 | h2
      · revert h2
        decide
      · rcases List.mem_append.1 h2 with h3 | h3
        · exact hfrag h3
        · revert h3
          decide
  unfold rawQuery
  rw [beforeFragment_eq_self _ hno, content_url_data]
  simp [List.dropWhile, String.ext_iff, String.data_append]

/-- C6 (counterexample): with a line feed in the search-parameter string `http.NewRequest`
fails and `getListedAds` builds no request (it ends in the panic of a nil dereference);
with a number sign in it the query of the request is only what precedes the sign. -/
theorem getListedAdsRequest_counterexample :
    getListedAdsRequest "abc123" "cg=1020\n" = none ∧
    getListedAds (sampleWorld (.ok samplePage) (.ok { Data := [] })) "abc123" "cg=1020\n"
      = .nilRequest ∧
    rawQuery ("https://api.blocket.se/search_bff/v1/content?" ++ "a#b" ++ "&include=all")
      = "a" := by
  decide

/-- C6 (amended): for every token and every model search-parameter string `p`, the empty
one included, that holds no ASCII control character and no number sign, the request of
`getListedAds` is a GET whose URL is the content endpoint followed by `p` and
`&include=all` and whose only header is the authorization header with value `Bearer `
followed by the token, and the query of the request is `p` followed by `&include=all`;
when the scan maps the label `V70` to `cg=1020&brand=abc&model=xyz` the query is
`cg=1020&brand=abc&model=xyz&include=all`. -/
theorem getListedAdsRequest_exact (token p : String)
    (hctl : ∀ c ∈ p.data, isCTL c = false) (hfrag : Char.ofNat 35 ∉ p.data) :
    getListedAdsRequest token p
      = some { method := "GET"
               url := "https://api.blocket.se/search_bff/v1/content?" ++ p ++ "&include=all"
               header := [("Authorization", "Bearer " ++ token)]
               timeout := 10 } ∧
    rawQuery ("https://api.blocket.se/search_bff/v1/content?" ++ p ++ "&include=all")
      = p ++ "&include=all" ∧
    (getListedAdsRequest token (selectByLabel sampleModels.CategoryCounters "V70").1).map
        (fun r => rawQuery r.url)
      = some "cg=1020&brand=abc&model=xyz&include=all" := by
  refine ⟨?_, rawQuery_content p hfrag, ?_⟩
  · simp only [getListedAdsRequest, authorizedGet, urlParseErr_content p hctl hfrag]
  · have hsel : (selectByLabel sampleModels.CategoryCounters "V70").1
        = "cg=1020&brand=abc&model=xyz" := by decide
    rw [hsel]
    simp only [getListedAdsRequest, authorizedGet,
      urlParseErr_content "cg=1020&brand=abc&model=xyz" (by decide) (by decide),
      Option.map_some']
    rw [rawQuery_content _ (by decide)]
    rfl

/-- C6 (witness): the empty search-parameter string. -/
theorem getListedAdsRequest_exact_witness :
    getListedAdsRequest "abc123" ""
      = some { method := "GET"
               url := "https://api.blocket.se/search_bff/v1/content?" ++ "" ++ "&include=all"
               header := [("Authorization", "Bearer " ++ "abc123")]
               timeout := 10 } :=
  (getListedAdsRequest_exact "abc123" "" (by decide) (by decide)).1

/-! ## Output dispatch: properties -/

theorem emitAds_printAds_iff (w : World) (f : Flags) (brandName modelName : String)
    (ads a : Ad) :
    Event.printAds a ∈ emitAds w f brandName modelName ads ↔
      (f.output = true ∧ f.list = false ∧ f.outdir = "") ∧ a = ads := by
  unfold emitAds
  cases ho : f.output <;> cases hl : f.list <;> by_cases hd : f.outdir = "" <;>
    simp [hd] <;>
    (cases (outputToCSV w.fs w.today brandName modelName ads _).outcome with
      | returned v e => cases e <;> simp
      | panicked i n => simp
      | exited c => simp)

theorem emitAds_outputToCSV_iff (w : World) (f : Flags) (brandName modelName : String)
    (ads : Ad) (b m : String) (a : Ad) (d : String) :
    Event.outputToCSV b m a d ∈ emitAds w f brandName modelName ads ↔
      (f.list = false ∧ ¬ (f.output = true ∧ f.list = false ∧ f.outdir = "")) ∧
        b = brandName ∧ m = modelName ∧ a = ads ∧
        d = (if f.outdir = "" then w.cwd else f.outdir) := by
  unfold emitAds
  cases ho : f.output <;> cases hl : f.list <;> by_cases hd : f.outdir = "" <;>
    simp [hd] <;>
    (cases (outputToCSV w.fs w.today brandName modelName ads _).outcome with
      | returned v e => cases e <;> simp
      | panicked i n => simp
      | exited c => simp)

theorem main_reaches_output (w : World) (f : Flags) (token : String) (err : Option String)
    (ads : Ad) (hu : usageExit f = false)
    (htok : getBearerToken w.page = .returned token err)
    (hads : getListedAds w token (selectedModel w f token).1 = .fetched ads) :
    ∃ before, main w f
        = before ++ emitAds w f (selectedBrand w f token).2 (selectedModel w f token).2 ads ∧
      (∀ a, Event.printAds a ∉ before) ∧
      (∀ b m a d, Event.outputToCSV b m a d ∉ before) := by
  simp only [main, hu, htok, hads]
  rw [if_neg (by decide)]
  refine ⟨Event.httpGet _ :: _, rfl, ?_, ?_⟩
  · intro a1
    cases err <;> cases f.list <;> by_cases hb : f.brand = "" <;>
      simp [fetchCatalog, listLabels, hb] <;>
      (repeat' split) <;> simp
  · intro b1 m1 a1 d1
    cases err <;> cases f.list <;> by_cases hb : f.brand = "" <;>
      simp [fetchCatalog, listLabels, hb] <;>
      (repeat' split) <;> simp

/-- C10 (counterexample): with `-brand Volvo -model V70`, which passes validation and sets
neither `-list` nor `-output`, `main` calls no CSV export when the start page cannot be
fetched (it ends in `log.Fatalln`) and when the listing request gets no answer (it ends in
a panic). -/
theorem main_no_output_counterexample :
    usageExit sampleFlags = false ∧
    main (sampleWorld (.error "no route to host") (.ok { Data := [] })) sampleFlags
      = [Event.httpGet "https://blocket.se/", Event.exit 1] ∧
    main (sampleWorld (.ok samplePage) (.error "timeout")) sampleFlags
      = [Event.httpGet "https://blocket.se/",
         Event.send
           { method := "GET"
             url := "https://api.blocket.se/classifieds/v1/ad_counters?cg=1020&include=all"
             header := [("Authorization", "Bearer abc123")]
             timeout := 10 },
         Event.send
           { method := "GET"
             url := "https://api.blocket.se/classifieds/v1/ad_counters?cg=1020&brand=abc&include=all"
             header := [("Authorization", "Bearer abc123")]
             timeout := 10 },
         Event.send
           { method := "GET"
             url := "https://api.blocket.se/search_bff/v1/content?cg=1020&brand=abc&model=xyz&include=all"
             header := [("Authorization", "Bearer abc123")]
             timeout := 10 },
         Event.nilPanic] := by
  decide

/-- C10 (amended): in every run of `main` that passes validation and reaches the output
step, that is, a token is obtained and the listing request is built and answered, `main`
prints the ads to the console, and calls no CSV export, exactly when `-output` is set,
`-list` is not set and `-outdir` is empty; it calls `outputToCSV`, with the selected brand
and model names, the fetched ads and the working directory in place of an empty `-outdir`,
exactly when `-list` is not set and the console condition fails; with `-list` set it does
neither. -/
theorem main_output_dispatch (w : World) (f : Flags) (token : String) (err : Option String)
    (ads : Ad) (hu : usageExit f = false)
    (htok : getBearerToken w.page = .returned token err)
    (hads : getListedAds w token (selectedModel w f token).1 = .fetched ads) :
    (∀ a, Event.printAds a ∈ main w f ↔
      (f.output = true ∧ f.list = false ∧ f.outdir = "") ∧ a = ads) ∧
    (∀ b m a d, Event.outputToCSV b m a d ∈ main w f ↔
      (f.list = false ∧ ¬ (f.output = true ∧ f.list = false ∧ f.outdir = "")) ∧
        b = (selectedBrand w f token).2 ∧ m = (selectedModel w f token).2 ∧ a = ads ∧
        d = (if f.outdir = "" then w.cwd else f.outdir)) ∧
    (f.list = true →
      (∀ a, Event.printAds a ∉ main w f) ∧
      (∀ b m a d, Event.outputToCSV b m a d ∉ main w f)) := by
  obtain ⟨before, hmain, hp, hc⟩ := main_reaches_output w f token err ads hu htok hads
  have h1 : ∀ a, Event.printAds a ∈ main w f ↔
      (f.output = true ∧ f.list = false ∧ f.outdir = "") ∧ a = ads := by
    intro a
    rw [hmain, List.mem_append, emitAds_printAds_iff]
    constructor
    · rintro (h | h)
      · exact absurd h (hp a)
      · exact h
    · exact fun h => Or.inr h
  have h2 : ∀ b m a d, Event.outputToCSV b m a d ∈ main w f ↔
      (f.list = false ∧ ¬ (f.output = true ∧ f.list = false ∧ f.outdir = "")) ∧
        b = (selectedBrand w f token).2 ∧ m = (selectedModel w f token).2 ∧ a = ads ∧
        d = (if f.outdir = "" then w.cwd else f.outdir) := by
    intro b m a d
    rw [hmain, List.mem_append, emitAds_outputToCSV_iff]
    constructor
    · rintro (h | h)
      · exact absurd h (hc b m a d)
      · exact h
    · exact fun h => Or.inr h
  refine ⟨h1, h2, ?_⟩
  intro hl
  constructor
  · intro a ha
    have := ((h1 a).1 ha).1.2.1
    rw [hl] at this
    exact Bool.noConfusion this
  · intro b m a d hd
    have := ((h2 b m a d).1 hd).1.1
    rw [hl] at this
    exact Bool.noConfusion this

/-- C10 (witness): `-brand Volvo -model V70` in a world that answers every request; the
ads are exported to the working directory under the selected names. -/
theorem main_output_dispatch_witness :
    Event.outputToCSV "Volvo" "V70" { Data := [] } "/tmp"
      ∈ main (sampleWorld (.ok samplePage) (.ok { Data := [] })) sampleFlags :=
  ((main_output_dispatch (sampleWorld (.ok samplePage) (.ok { Data := [] })) sampleFlags
      "abc123" none { Data := [] } (by decide) (by decide) (by decide)).2.1
    "Volvo" "V70" { Data := [] } "/tmp").2 (by decide)

/-! ## CSV export: properties -/

theorem adLine_wellFormed (v : AdData) (hloc : 1 ≤ v.Location.length)
    (hpar : 4 ≤ firstGroupSize v) : adLine v = .ok (exportRow v) := by
  obtain ⟨AdID, AdStatus, Attributes, LicensePlate, ListID, Location, ParameterGroups, Price,
    ShareURL, Subject⟩ := v
  simp only [firstGroupSize] at hloc hpar
  match ParameterGroups, hpar with
  | g :: gs, hpar =>
    obtain ⟨gl, ps, gk⟩ := g
    match ps, hpar with
    | p0 :: p1 :: p2 :: p3 :: ps, _ =>
      match Location, hloc with
      | [l0], _ => simp [adLine, index, exportRow, bind, Except.bind, pure, Except.pure]
      | l0 :: l1 :: ls, _ =>
        simp [adLine, index, exportRow, bind, Except.bind, pure, Except.pure, Except.map]

theorem writeRows_wellFormed (vs : List AdData) (written : List (List String))
    (hwf : ∀ v ∈ vs, 1 ≤ v.Location.length ∧ 4 ≤ firstGroupSize v) :
    writeRows vs written = (written ++ vs.map exportRow, none) := by
  induction vs generalizing written with
  | nil => simp [writeRows]
  | cons v vs ih =>
    have hv := hwf v (List.mem_cons_self _ _)
    have hvs : ∀ x ∈ vs, 1 ≤ x.Location.length ∧ 4 ≤ firstGroupSize x :=
      fun x hx => hwf x (List.mem_cons_of_mem _ hx)
    simp [writeRows, adLine_wellFormed v hv.1 hv.2, ih _ hvs]

/-- C2: when the file can be created and every ad has at least one location entry and at
least four parameters in its first parameter group, the records `outputToCSV` writes are
the header `Subject, Price, Mileage, Year, Municipality, Area, URL` followed by the export
row of each ad, in input order, and the call returns without error; the row of an ad has
seven fields, and its Area field is the name of the second location entry when there are
two or more and `N/A` when there is exactly one. -/
theorem outputToCSV_records (fs : FileSys) (today : Date) (brandName modelName : String)
    (ads : Ad) (outdir : String)
    (hcreate : (ensureDir fs (filepathJoin [outdir, "data", brandName, modelName])).createErr
      (filepathJoin [outdir, "data", brandName, modelName,
        csvFilename brandName modelName today]) = none)
    (hwf : ∀ v ∈ ads.Data, 1 ≤ v.Location.length ∧ 4 ≤ firstGroupSize v) :
    (outputToCSV fs today brandName modelName ads outdir).records
      = ["Subject", "Price", "Mileage", "Year", "Municipality", "Area", "URL"]
          :: ads.Data.map exportRow ∧
    (outputToCSV fs today brandName modelName ads outdir).outcome = .returned () none ∧
    (∀ v ∈ ads.Data, ∃ g p2 p3 l0,
      v.ParameterGroups[0]? = some g ∧ g.Parameters[2]? = some p2 ∧
      g.Parameters[3]? = some p3 ∧ v.Location[0]? = some l0 ∧
      exportRow v = [v.Subject, toString v.Price.Value, p2.Value, p3.Value, l0.Name,
        (match v.Location[1]? with
          | some l1 => l1.Name
          | none => "N/A"), v.ShareURL]) := by
  refine ⟨?_, ?_, ?_⟩
  · simp [outputToCSV, hcreate, writeRows_wellFormed ads.Data _ hwf, columnnames]
  · simp [outputToCSV, hcreate, writeRows_wellFormed ads.Data _ hwf]
  · intro v hv
    obtain ⟨hloc, hpar⟩ := hwf v hv
    obtain ⟨AdID, AdStatus, Attributes, LicensePlate, ListID, Location, ParameterGroups, Price,
      ShareURL, Subject⟩ := v
    simp only [firstGroupSize] at hloc hpar
    match ParameterGroups, hpar with
    | g :: gs, hpar =>
      obtain ⟨gl, ps, gk⟩ := g
      match ps, hpar with
      | p0 :: p1 :: p2 :: p3 :: ps, _ =>
        match Location, hloc with
        | [l0], _ =>
          exact ⟨{ Label := gl, Parameters := p0 :: p1 :: p2 :: p3 :: ps, Kind := gk }, p2, p3,
            l0, by simp, by simp, by simp, by simp, by simp [exportRow]⟩
        | l0 :: l1 :: ls, _ =>
          exact ⟨{ Label := gl, Parameters := p0 :: p1 :: p2 :: p3 :: ps, Kind := gk }, p2, p3,
            l0, by simp, by simp, by simp, by simp, by simp [exportRow]⟩

/-- C2 (witness): two ads, the first with two location entries and the second with one. -/
theorem outputToCSV_records_witness :
    (outputToCSV plainFileSys { Year := 2024, Month := 3, Day := 7 } "Volvo" "V70"
        { Data := [sampleAd "a" 45000 ["Diesel", "Manuell", "12000", "2015"] ["Uppsala", "Centrum"],
                   sampleAd "b" 99000 ["Bensin", "Automat", "8000", "2019"] ["Lund"]] }
        "/tmp").records
      = [["Subject", "Price", "Mileage", "Year", "Municipality", "Area", "URL"],
         ["a", "45000", "12000", "2015", "Uppsala", "Centrum", "https://www.blocket.se/annons/a"],
         ["b", "99000", "8000", "2019", "Lund", "N/A", "https://www.blocket.se/annons/b"]] :=
  (outputToCSV_records plainFileSys { Year := 2024, Month := 3, Day := 7 } "Volvo" "V70"
    { Data := [sampleAd "a" 45000 ["Diesel", "Manuell", "12000", "2015"] ["Uppsala", "Centrum"],
               sampleAd "b" 99000 ["Bensin", "Automat", "8000", "2019"] ["Lund"]] }
    "/tmp" (by decide) (by decide)).1

/-- C3 (the code at the failing input): of three ads the second has only three parameters
in its first parameter group; `outputToCSV` panics at it with `index out of range [3] with
length 3`, after the header and the row of the first ad, and the third ad gets no row. -/
theorem outputToCSV_short_parameters_panics :
    (outputToCSV plainFileSys { Year := 2024, Month := 3, Day := 7 } "Volvo" "V70"
        { Data := [sampleAd "a" 45000 ["Diesel", "Manuell", "12000", "2015"] ["Uppsala", "Centrum"],
                   sampleAd "b" 99000 ["Bensin", "Automat", "8000"] ["Lund", "Norr"],
                   sampleAd "c" 31000 ["Diesel", "Manuell", "21000", "2011"] ["Umea", "Ost"]] }
        "/tmp").mkdir = some "/tmp/data/Volvo/V70" ∧
    (outputToCSV plainFileSys { Year := 2024, Month := 3, Day := 7 } "Volvo" "V70"
        { Data := [sampleAd "a" 45000 ["Diesel", "Manuell", "12000", "2015"] ["Uppsala", "Centrum"],
                   sampleAd "b" 99000 ["Bensin", "Automat", "8000"] ["Lund", "Norr"],
                   sampleAd "c" 31000 ["Diesel", "Manuell", "21000", "2011"] ["Umea", "Ost"]] }
        "/tmp").path = "/tmp/data/Volvo/V70/Volvo_V70_2024-03-07.csv" ∧
    (outputToCSV plainFileSys { Year := 2024, Month := 3, Day := 7 } "Volvo" "V70"
        { Data := [sampleAd "a" 45000 ["Diesel", "Manuell", "12000", "2015"] ["Uppsala", "Centrum"],
                   sampleAd "b" 99000 ["Bensin", "Automat", "8000"] ["Lund", "Norr"],
                   sampleAd "c" 31000 ["Diesel", "Manuell", "21000", "2011"] ["Umea", "Ost"]] }
        "/tmp").records =
      [["Subject", "Price", "Mileage", "Year", "Municipality", "Area", "URL"],
       ["a", "45000", "12000", "2015", "Uppsala", "Centrum",
        "https://www.blocket.se/annons/a"]] ∧
    (outputToCSV plainFileSys { Year := 2024, Month := 3, Day := 7 } "Volvo" "V70"
        { Data := [sampleAd "a" 45000 ["Diesel", "Manuell", "12000", "2015"] ["Uppsala", "Centrum"],
                   sampleAd "b" 99000 ["Bensin", "Automat", "8000"] ["Lund", "Norr"],
                   sampleAd "c" 31000 ["Diesel", "Manuell", "21000", "2011"] ["Umea", "Ost"]] }
        "/tmp").outcome = .panicked 3 3 := by
  decide

/-- C8 (the code at the failing input): an ad with four parameters and an empty location
list; `outputToCSV` panics at `v.Location[0]` with `index out of range [0] with length 0`
and writes no row for the ad. -/
theorem outputToCSV_empty_location_panics :
    (outputToCSV plainFileSys { Year := 2024, Month := 3, Day := 7 } "Volvo" "V70"
        { Data := [sampleAd "a" 45000 ["Diesel", "Manuell", "12000", "2015"] []] }
        "/tmp").mkdir = some "/tmp/data/Volvo/V70" ∧
    (outputToCSV plainFileSys { Year := 2024, Month := 3, Day := 7 } "Volvo" "V70"
        { Data := [sampleAd "a" 45000 ["Diesel", "Manuell", "12000", "2015"] []] }
        "/tmp").path = "/tmp/data/Volvo/V70/Volvo_V70_2024-03-07.csv" ∧
    (outputToCSV plainFileSys { Year := 2024, Month := 3, Day := 7 } "Volvo" "V70"
        { Data := [sampleAd "a" 45000 ["Diesel", "Manuell", "12000", "2015"] []] }
        "/tmp").records =
      [["Subject", "Price", "Mileage", "Year", "Municipality", "Area", "URL"]] ∧
    (outputToCSV plainFileSys { Year := 2024, Month := 3, Day := 7 } "Volvo" "V70"
        { Data := [sampleAd "a" 45000 ["Diesel", "Manuell", "12000", "2015"] []] }
        "/tmp").outcome = .panicked 0 0 := by
  decide

/-! ## The output path: properties -/

theorem toDigits_four (n : Nat) (hlo : 1000 ≤ n) (hhi : n ≤ 9999) :
    Nat.toDigits 10 n = [Nat.digitChar (n / 1000 % 10), Nat.digitChar (n / 100 % 10),
      Nat.digitChar (n / 10 % 10), Nat.digitChar (n % 10)] := by
  obtain ⟨k, rfl⟩ : ∃ k, n = k + 3 := ⟨n - 3, by omega⟩
  have h1 : (k + 3) / 10 ≠ 0 := by omega
  have h2 : (k + 3) / 10 / 10 ≠ 0 := by omega
  have h3 : (k + 3) / 10 / 10 / 10 ≠ 0 := by omega
  have h4 : (k + 3) / 10 / 10 / 10 / 10 = 0 := by omega
  have e2 : (k + 3) / 10 / 10 = (k + 3) / 100 := by omega
  have e3 : (k + 3) / 10 / 10 / 10 = (k + 3) / 1000 := by omega
  have e4 : (k + 3) / 1000 % 10 = (k + 3) / 1000 := by omega
  simp only [Nat.toDigits, Nat.toDigitsCore, h1, h2, h3, h4, if_true, if_false]
  rw [e3, e2, e4]

theorem toDigits_small (n : Nat) (h : n < 10) : Nat.toDigits 10 n = [Nat.digitChar n] := by
  have h1 : n / 10 = 0 := by omega
  have h2 : n % 10 = n := by omega
  simp [Nat.toDigits, Nat.toDigitsCore, h1, h2]

theorem toDigits_two (n : Nat) (hlo : 10 ≤ n) (hhi : n < 100) :
    Nat.toDigits 10 n = [Nat.digitChar (n / 10), Nat.digitChar (n % 10)] := by
  obtain ⟨k, rfl⟩ : ∃ k, n = k + 1 := ⟨n - 1, by omega⟩
  have h1 : (k + 1) / 10 ≠ 0 := by omega
  have h2 : (k + 1) / 10 / 10 = 0 := by omega
  have e1 : (k + 1) / 10 % 10 = (k + 1) / 10 := by omega
  simp only [Nat.toDigits, Nat.toDigitsCore, h1, h2, if_true, if_false]
  rw [e1]

theorem fmtD_four (n : Nat) (hlo : 1000 ≤ n) (hhi : n ≤ 9999) :
    fmtD n = String.mk [Nat.digitChar (n / 1000 % 10), Nat.digitChar (n / 100 % 10),
      Nat.digitChar (n / 10 % 10), Nat.digitChar (n % 10)] := by
  simp [fmtD, toString, Nat.repr, toDigits_four n hlo hhi, List.asString]

theorem fmt02d_two (n : Nat) (hhi : n < 100) :
    fmt02d n = String.mk [Nat.digitChar (n / 10 % 10), Nat.digitChar (n % 10)] := by
  by_cases h : n < 10
  · have h0 : n / 10 % 10 = 0 := by omega
    have h1 : n % 10 = n := by omega
    simp only [fmt02d, toString, Nat.repr, toDigits_small n h, List.asString, h0, h1]
    rfl
  · have h0 : n / 10 % 10 = n / 10 := by omega
    simp only [fmt02d, toString, Nat.repr, toDigits_two n (by omega) hhi, List.asString, h0]
    rfl

theorem csvFilename_iso (brandName modelName : String) (d : Date)
    (hy : 1000 ≤ d.Year ∧ d.Year ≤ 9999) (hm : d.Month ≤ 12) (hd : d.Day ≤ 31) :
    csvFilename brandName modelName d
      = brandName ++ "_" ++ modelName ++ "_" ++ isoDate d ++ ".csv" := by
  simp only [csvFilename, isoDate, fmtD_four d.Year hy.1 hy.2, fmt02d_two d.Month (by omega),
    fmt02d_two d.Day (by omega), String.append_assoc]

/-! ## Paths: properties -/

theorem splitScan_single_append (c : Char) (a b cur : List Char) :
    splitScan [c] (a ++ c :: b) 0 cur = splitScan [c] a 0 cur ++ splitScan [c] b 0 [] := by
  induction a generalizing cur with
  | nil =>
    have hp : [c].isPrefixOf (c :: b) = true := by simp [List.isPrefixOf]
    simp [splitScan, hp]
  | cons x a ih =>
    by_cases hx : [c].isPrefixOf (x :: a) = true
    · have hx2 : [c].isPrefixOf (x :: (a ++ c :: b)) = true := by
        simp [List.isPrefixOf] at hx ⊢
        exact hx
      rw [List.cons_append, splitScan, if_pos hx2, splitScan, if_pos hx]
      simp only [List.length_singleton, Nat.sub_self, List.cons_append]
      rw [ih]
    · have hx2 : ¬ [c].isPrefixOf (x :: (a ++ c :: b)) = true := by
        simp [List.isPrefixOf] at hx ⊢
        exact hx
      rw [List.cons_append, splitScan, if_neg hx2, splitScan, if_neg hx, ih]

theorem stringsJoin_snoc (x : String) (xs : List String) (n sep : String) :
    stringsJoin (x :: xs ++ [n]) sep = stringsJoin (x :: xs) sep ++ sep ++ n := by
  induction xs generalizing x with
  | nil => simp [stringsJoin]
  | cons y ys ih =>
    have := ih y
    simp only [List.cons_append] at this ⊢
    simp only [stringsJoin, this, String.append_assoc]

theorem stringsJoin_data_ne_nil (x : String) (xs : List String) (sep : String)
    (hx : x ≠ "") : (stringsJoin (x :: xs) sep).data ≠ [] := by
  have hxd : x.data ≠ [] := fun h => hx (String.ext h)
  cases xs with
  | nil => simpa [stringsJoin] using hxd
  | cons y ys => simp [stringsJoin, String.data_append, hxd]

theorem stringsSplit_plain (n : String) (h : Char.ofNat 47 ∉ n.data) :
    stringsSplit n "/" = [n] := by
  have hsep : ("/" : String).data = [Char.ofNat 47] := by decide
  have hinf : ¬ [Char.ofNat 47] <:+: n.data := by
    rintro ⟨u, v, huv⟩
    exact h (by rw [← huv]; simp)
  simp [stringsSplit, hsep, splitScan_no_occurrence _ _ hinf]

theorem stringsSplit_join_snoc (x : String) (xs : List String) (n : String) :
    stringsSplit (stringsJoin (x :: xs ++ [n]) "/") "/"
      = stringsSplit (stringsJoin (x :: xs) "/") "/" ++ stringsSplit n "/" := by
  have hsep : ("/" : String).data = [Char.ofNat 47] := by decide
  rw [stringsJoin_snoc]
  simp only [stringsSplit, hsep, String.data_append, List.cons_ne_nil, if_false,
    List.append_assoc, List.singleton_append, splitScan_single_append, List.map_append]

theorem cleanStep_plain (rooted : Bool) (stack : List String) (n : String)
    (h0 : n ≠ "") (h1 : n ≠ ".") (h2 : n ≠ "..") : cleanStep rooted stack n = n :: stack := by
  simp [cleanStep, h0, h1, h2]

theorem filepathClean_snoc (x : String) (xs : List String) (n : String) (hx : x ≠ "")
    (hslash : Char.ofNat 47 ∉ n.data) (h0 : n ≠ "") (h1 : n ≠ ".") (h2 : n ≠ "..") :
    filepathClean (stringsJoin (x :: xs ++ [n]) "/")
      = { rooted := (filepathClean (stringsJoin (x :: xs) "/")).rooted
          comps := (filepathClean (stringsJoin (x :: xs) "/")).comps ++ [n] } := by
  have hhead : (stringsJoin (x :: xs ++ [n]) "/").data.head?
      = (stringsJoin (x :: xs) "/").data.head? := by
    rw [stringsJoin_snoc]
    have hne := stringsJoin_data_ne_nil x xs "/" hx
    cases hd : (stringsJoin (x :: xs) "/").data with
    | nil => exact absurd hd hne
    | cons c cs => simp [String.data_append, hd]
  simp only [filepathClean, hhead, stringsSplit_join_snoc, stringsSplit_plain n hslash,
    List.foldl_append, List.foldl_cons, List.foldl_nil, cleanStep_plain _ _ n h0 h1 h2,
    List.reverse_cons]

theorem dropWhile_append_of_mem {α : Type} (p : α → Bool) (l r : List α)
    (h : ∃ x ∈ l, p x = false) : (l ++ r).dropWhile p = l.dropWhile p ++ r := by
  induction l with
  | nil => simp at h
  | cons a l ih =>
    cases hpa : p a
    · simp [List.dropWhile, hpa]
    · have h2 : ∃ x ∈ l, p x = false := by
        obtain ⟨x, hx, hpx⟩ := h
        rcases List.mem_cons.1 hx with rfl | hx
        · rw [hpa] at hpx
          exact Bool.noConfusion hpx
        · exact ⟨x, hx, hpx⟩
      simp [List.dropWhile, hpa, ih h2]

theorem filepathJoin_snoc (l : List String) (n : String) (hl : ∃ x ∈ l, x ≠ "")
    (hslash : Char.ofNat 47 ∉ n.data) (h0 : n ≠ "") (h1 : n ≠ ".") (h2 : n ≠ "..") :
    filepathJoin (l ++ [n])
      = { rooted := (filepathJoin l).rooted, comps := (filepathJoin l).comps ++ [n] } := by
  have hex : ∃ x ∈ l, (fun e : String => e == "") x = false := by
    obtain ⟨x, hx, hne⟩ := hl
    exact ⟨x, hx, by simpa using hne⟩
  unfold filepathJoin
  rw [dropWhile_append_of_mem _ l [n] hex]
  cases hd : l.dropWhile (fun e => e == "") with
  | nil =>
    obtain ⟨x, hx, hpx⟩ := hex
    have := List.dropWhile_eq_nil_iff.1 hd x hx
    have hpx2 : (x == "") = false := hpx
    rw [hpx2] at this
    exact Bool.noConfusion this
  | cons e es =>
    have he : e ≠ "" := by
      have := List.head_dropWhile_not (fun e : String => e == "") l (by rw [hd]; simp)
      simp only [hd, List.head_cons] at this
      simpa using this
    exact filepathClean_snoc e es n he hslash h0 h1 h2

theorem not_mem_of_not_contains (t : String) (h : ¬ stringsContains t "/") :
    Char.ofNat 47 ∉ t.data := by
  intro hmem
  obtain ⟨u, v, huv⟩ := List.append_of_mem hmem
  have hsep : ("/" : String).data = [Char.ofNat 47] := by decide
  exact h ⟨u, v, by rw [huv, hsep]; simp⟩

theorem digitChar_ne_slash (k : Nat) : Nat.digitChar (k % 10) ≠ Char.ofNat 47 := by
  have h : ∀ j, j < 10 → Nat.digitChar j ≠ Char.ofNat 47 := by decide
  exact h _ (Nat.mod_lt _ (by decide))

theorem csvName_plain (brandName modelName : String) (d : Date)
    (hb : ¬ stringsContains brandName "/") (hm : ¬ stringsContains modelName "/") :
    Char.ofNat 47 ∉ (brandName ++ "_" ++ modelName ++ "_" ++ isoDate d ++ ".csv").data ∧
    brandName ++ "_" ++ modelName ++ "_" ++ isoDate d ++ ".csv" ≠ "" ∧
    brandName ++ "_" ++ modelName ++ "_" ++ isoDate d ++ ".csv" ≠ "." ∧
    brandName ++ "_" ++ modelName ++ "_" ++ isoDate d ++ ".csv" ≠ ".." := by
  have hu : Char.ofNat 95
      ∈ (brandName ++ "_" ++ modelName ++ "_" ++ isoDate d ++ ".csv").data := by
    have : Char.ofNat 95 ∈ ("_" : String).data := by decide
    simp [String.data_append, this]
  refine ⟨?_, ?_, ?_, ?_⟩
  · have hb2 := not_mem_of_not_contains brandName hb
    have hm2 := not_mem_of_not_contains modelName hm
    have d1 : ∀ k, ¬ Char.ofNat 47 = Nat.digitChar (k % 10) :=
      fun k => Ne.symm (digitChar_ne_slash k)
    have c1 : ¬ Char.ofNat 47 = Char.ofNat 95 := by decide
    have c2 : ¬ Char.ofNat 47 = Char.ofNat 45 := by decide
    have e1 : ("_" : String).data = [Char.ofNat 95] := by decide
    have e2 : ("-" : String).data = [Char.ofNat 45] := by decide
    simp only [isoDate, String.data_append, List.mem_append, List.mem_cons, List.mem_nil_iff,
      not_or, or_false, e1, e2]
    exact ⟨⟨⟨⟨⟨hb2, c1⟩, hm2⟩, c1⟩,
      ⟨⟨⟨⟨⟨d1 _, d1 _, d1 _, d1 _⟩, c2⟩, ⟨d1 _, d1 _⟩⟩, c2⟩, ⟨d1 _, d1 _⟩⟩⟩, by decide⟩
  · intro h
    rw [h] at hu
    revert hu
    decide
  · intro h
    rw [h] at hu
    revert hu
    decide
  · intro h
    rw [h] at hu
    revert hu
    decide

/-! ## The file system: properties -/

theorem mem_ancestors_self (p : Path) : p ∈ p.ancestors := by
  unfold Path.ancestors
  rw [List.mem_map]
  exact ⟨p.comps.length, by simp, by simp⟩

theorem length_le_of_mem_ancestors (p x : Path) (h : x ∈ p.ancestors) :
    x.comps.length ≤ p.comps.length := by
  unfold Path.ancestors at h
  rw [List.mem_map] at h
  obtain ⟨n, _, rfl⟩ := h
  simp

theorem mem_ensureDir_dirs (fs : FileSys) (dir x : Path) (h : x ∈ (ensureDir fs dir).dirs) :
    x ∈ fs.dirs ∨ x ∈ dir.ancestors := by
  unfold ensureDir FileSys.mkdirAll at h
  split at h
  · split at h
    · exact Or.inl h
    · rcases List.mem_append.1 h with h1 | h1
      · exact Or.inl h1
      · exact Or.inr (List.mem_filter.1 h1).1
  · exact Or.inl h

theorem dir_mem_ensureDir (fs : FileSys) (dir : Path)
    (hfiles : ∀ a ∈ dir.ancestors, a ∉ fs.files) : dir ∈ (ensureDir fs dir).dirs := by
  have hany : dir.ancestors.any (fun a => decide (a ∈ fs.files)) = false := by
    rw [List.any_eq_false]
    intro a ha
    simpa using hfiles a ha
  unfold ensureDir
  split
  · unfold FileSys.mkdirAll
    rw [if_neg (by simp [hany])]
    by_cases hd : dir ∈ fs.dirs
    · exact List.mem_append.2 (Or.inl hd)
    · exact List.mem_append.2
        (Or.inr (List.mem_filter.2 ⟨mem_ancestors_self dir, by simpa using hd⟩))
  · rename_i hne
    have hex : dir ∉ fs.dirs → dir ∈ fs.files := by
      simpa [FileSys.notExist] using hne
    by_contra hd
    exact hfiles dir (mem_ancestors_self dir) (hex hd)

theorem createErr_child (fs : FileSys) (dir : Path) (n : String)
    (hfiles : ∀ a ∈ dir.ancestors, a ∉ fs.files)
    (hdir : ({ rooted := dir.rooted, comps := dir.comps ++ [n] } : Path) ∉ fs.dirs) :
    (ensureDir fs dir).createErr { rooted := dir.rooted, comps := dir.comps ++ [n] }
      = none := by
  have h1 : ({ rooted := dir.rooted, comps := dir.comps ++ [n] } : Path)
      ∉ (ensureDir fs dir).dirs := by
    intro hmem
    rcases mem_ensureDir_dirs fs dir _ hmem with h | h
    · exact hdir h
    · have := length_le_of_mem_ancestors dir _ h
      simp at this
  have h2 : ({ rooted := dir.rooted, comps := dir.comps ++ [n] } : Path).parent
      ∈ (ensureDir fs dir).dirs := by
    have : ({ rooted := dir.rooted, comps := dir.comps ++ [n] } : Path).parent = dir := by
      simp [Path.parent]
    rw [this]
    exact dir_mem_ensureDir fs dir hfiles
  unfold FileSys.createErr
  rw [if_neg h1, if_pos h2]

theorem mem_create_files (fs : FileSys) (p : Path) : p ∈ (fs.create p).files := by
  unfold FileSys.create
  split
  · assumption
  · simp

theorem create_dirs (fs : FileSys) (p : Path) : (fs.create p).dirs = fs.dirs := by
  unfold FileSys.create
  split <;> rfl

/-! ## The output path: the exported file -/

theorem filepathJoin_export (outdir brandName modelName : String) (today : Date)
    (hy : 1000 ≤ today.Year ∧ today.Year ≤ 9999) (hm : today.Month ≤ 12)
    (hd : today.Day ≤ 31)
    (hb : ¬ stringsContains brandName "/") (hmod : ¬ stringsContains modelName "/") :
    filepathJoin [outdir, "data", brandName, modelName, csvFilename brandName modelName today]
      = (exportDir outdir brandName modelName).child (exportName brandName modelName today) := by
  obtain ⟨h1, h2, h3, h4⟩ := csvName_plain brandName modelName today hb hmod
  rw [csvFilename_iso brandName modelName today hy hm hd]
  have hl : ∃ x ∈ [outdir, "data", brandName, modelName], x ≠ "" :=
    ⟨"data", by simp, by decide⟩
  exact filepathJoin_snoc [outdir, "data", brandName, modelName] _ hl h1 h2 h3 h4

theorem toString_child (dir : Path) (name : String) (h : dir.comps ≠ []) :
    (dir.child name).toString = dir.toString ++ "/" ++ name := by
  obtain ⟨rooted, comps⟩ := dir
  cases comps with
  | nil => exact absurd rfl h
  | cons c cs =>
    have hj := stringsJoin_snoc c cs name "/"
    rw [List.cons_append] at hj
    cases rooted
    · simp [Path.child, Path.toString, hj]
    · simp [Path.child, Path.toString, hj, String.append_assoc]

/-- C7 (counterexample): with the brand name `a/b` the file name holds a slash; the
directory `/tmp/data/a/b/m` is made, `os.Create` is called on
`/tmp/data/a/b/m/a/b_m_2024-03-07.csv`, whose directory does not exist, and fails: no file
is created. -/
theorem outputToCSV_slash_counterexample :
    (outputToCSV plainFileSys { Year := 2024, Month := 3, Day := 7 } "a/b" "m" { Data := [] }
        "/tmp").mkdir = some "/tmp/data/a/b/m" ∧
    (outputToCSV plainFileSys { Year := 2024, Month := 3, Day := 7 } "a/b" "m" { Data := [] }
        "/tmp").path = "/tmp/data/a/b/m/a/b_m_2024-03-07.csv" ∧
    (outputToCSV plainFileSys { Year := 2024, Month := 3, Day := 7 } "a/b" "m" { Data := [] }
        "/tmp").outcome = .returned () (some "no such file or directory") ∧
    (outputToCSV plainFileSys { Year := 2024, Month := 3, Day := 7 } "a/b" "m" { Data := [] }
        "/tmp").fileSys.files = [] := by
  decide

/-- C7 (amended): for every brand name and model name that hold no slash, every output
directory and every date with a year from 1000 to 9999, a month from 1 to 12 and a day from
1 to 31, on a file system where no path from the directory `<outdir>/data/<brand>/<model>`
upwards is a regular file and the target is not a directory, `outputToCSV` creates the file
named exactly `brand_model_YYYY-MM-DD.csv` (month and day with two digits) directly inside
that directory, which exists afterwards, and returns no error; the path depends on the
output directory, brand, model and date only, not on the ads or on the state of the file
system. -/
theorem outputToCSV_path (fs : FileSys) (today : Date) (brandName modelName : String)
    (ads : Ad) (outdir : String)
    (hy : 1000 ≤ today.Year ∧ today.Year ≤ 9999)
    (hm : 1 ≤ today.Month ∧ today.Month ≤ 12)
    (hd : 1 ≤ today.Day ∧ today.Day ≤ 31)
    (hb : ¬ stringsContains brandName "/") (hmod : ¬ stringsContains modelName "/")
    (hfiles : ∀ a ∈ (exportDir outdir brandName modelName).ancestors, a ∉ fs.files)
    (hdir : (exportDir outdir brandName modelName).child
      (exportName brandName modelName today) ∉ fs.dirs) :
    (outputToCSV fs today brandName modelName ads outdir).path
      = ((exportDir outdir brandName modelName).child
          (exportName brandName modelName today)).toString ∧
    ((exportDir outdir brandName modelName).comps ≠ [] →
      (outputToCSV fs today brandName modelName ads outdir).path
        = (exportDir outdir brandName modelName).toString ++ "/"
            ++ exportName brandName modelName today) ∧
    (exportDir outdir brandName modelName).child (exportName brandName modelName today)
      ∈ (outputToCSV fs today brandName modelName ads outdir).fileSys.files ∧
    exportDir outdir brandName modelName
      ∈ (outputToCSV fs today brandName modelName ads outdir).fileSys.dirs ∧
    (∀ e, (outputToCSV fs today brandName modelName ads outdir).outcome
      ≠ .returned () (some e)) ∧
    (∀ (fs2 : FileSys) (ads2 : Ad),
      (outputToCSV fs2 today brandName modelName ads2 outdir).path
        = (outputToCSV fs today brandName modelName ads outdir).path) := by
  have hjoin := filepathJoin_export outdir brandName modelName today hy hm.2 hd.2 hb hmod
  have hcreate := createErr_child fs (exportDir outdir brandName modelName)
    (exportName brandName modelName today) hfiles hdir
  have hdirmem := dir_mem_ensureDir fs (exportDir outdir brandName modelName) hfiles
  have hpath : ∀ (g : FileSys) (a : Ad),
      (outputToCSV g today brandName modelName a outdir).path
        = ((exportDir outdir brandName modelName).child
            (exportName brandName modelName today)).toString := by
    intro g a
    simp only [outputToCSV, hjoin]
    split
    · rfl
    · split <;> rfl
  have hrun : (outputToCSV fs today brandName modelName ads outdir).fileSys
        = (ensureDir fs (exportDir outdir brandName modelName)).create
            ((exportDir outdir brandName modelName).child
              (exportName brandName modelName today)) ∧
      (∀ e, (outputToCSV fs today brandName modelName ads outdir).outcome
        ≠ .returned () (some e)) := by
    have hc : (ensureDir fs (filepathJoin [outdir, "data", brandName, modelName])).createErr
        ((exportDir outdir brandName modelName).child
          (exportName brandName modelName today)) = none := hcreate
    simp only [outputToCSV, hjoin, hc]
    split
    · exact ⟨rfl, fun e h => by simp at h⟩
    · exact ⟨rfl, fun e h => by simp at h⟩
  refine ⟨hpath fs ads, ?_, ?_, ?_, hrun.2, ?_⟩
  · intro hne
    rw [hpath fs ads, toString_child _ _ hne]
  · rw [hrun.1]
    exact mem_create_files _ _
  · rw [hrun.1, create_dirs]
    exact hdirmem
  · intro fs2 ads2
    rw [hpath, hpath]

/-- C7 (witness): the export of 7 March 2024 for `Volvo`, `V70` into `/tmp`. -/
theorem outputToCSV_path_witness :
    (outputToCSV plainFileSys { Year := 2024, Month := 3, Day := 7 } "Volvo" "V70"
        { Data := [] } "/tmp").path
      = "/tmp/data/Volvo/V70/Volvo_V70_2024-03-07.csv" ∧
    ({ rooted := true, comps := ["tmp", "data", "Volvo", "V70", "Volvo_V70_2024-03-07.csv"] } :
        Path)
      ∈ (outputToCSV plainFileSys { Year := 2024, Month := 3, Day := 7 } "Volvo" "V70"
          { Data := [] } "/tmp").fileSys.files :=
  ⟨(outputToCSV_path plainFileSys { Year := 2024, Month := 3, Day := 7 } "Volvo" "V70"
      { Data := [] } "/tmp" (by decide) (by decide) (by decide) (by decide) (by decide)
      (by decide) (by decide)).1.trans (by decide),
    by decide⟩

end Blocket
